import Mathlib

/-!
Verification of the restaurant-ordering assistant's order-ledger and
conversation-state core.  The definitions below are a shallow embedding of
the Python sources:

  * `src/models/shared_memory.py`  (class `SharedMemory`)
  * `src/models/order_models.py`   (classes `OrderItem`, `Order`)
  * `src/agents/order_agent.py`    (class `OrderAgent`)
  * `src/agents/new_coordinator_agent.py` (class `NewCoordinatorAgent`)

Python floats are modelled as rationals (`ℚ`), Python ints as `Int`
(counters that start at 0 and only grow as `Nat`), Python strings as
`String`.  Order lines are Python dicts with keys
`name/quantity/price/customizations`; they are modelled as a structure with
those fields (extra decorative keys such as the `"total"` key written by
the fallback path are never read back and are dropped).  LLM calls are
external I/O: where a function consumes an LLM response, the response is a
parameter of the embedded function.
-/

namespace RestaurantAI

/-- Python's `str.lower()` (ASCII case folding, which covers every string
the program compares). -/
def strLower (s : String) : String := ⟨s.data.map Char.toLower⟩

/-- Python's whitespace test used by `str.strip()`. -/
def pyIsSpace (c : Char) : Bool :=
  c = ' ' || c = '\t' || c = '\n' || c = '\r' || c = '\x0b' || c = '\x0c'

/-- Python's `str.strip()`: drop whitespace from both ends. -/
def strStrip (s : String) : String :=
  ⟨((s.data.dropWhile pyIsSpace).reverse.dropWhile pyIsSpace).reverse⟩

/-- Python's `pat in s` substring test on lists of characters:
`containsSeq pat l` is true iff `pat` occurs contiguously inside `l`. -/
def containsSeq (pat : List Char) : List Char → Bool
  | [] => pat.isEmpty
  | x :: xs => pat.isPrefixOf (x :: xs) || containsSeq pat xs

/-- Python's `pat in haystack` on strings. -/
def strContains (haystack pat : String) : Bool :=
  containsSeq pat.data haystack.data

/-- Python's first-match loop `for x in l: if p(x): return x`. -/
def pyFind {α : Type} (p : α → Bool) : List α → Option α
  | [] => none
  | x :: xs => if p x then some x else pyFind p xs

/-- Python's first-match loop `for i, x in enumerate(l): if p(x): return i`. -/
def pyFindIdx {α : Type} (p : α → Bool) : List α → Option Nat
  | [] => none
  | x :: xs => if p x then some 0 else (pyFindIdx p xs).map (· + 1)

/-- One line of the order ledger: a Python dict with keys
`name`, `quantity`, `price`, `customizations`
(`src/models/shared_memory.py`, `current_order` entries). -/
structure OrderLine where
  name : String
  quantity : Int
  price : ℚ
  customizations : List String
deriving DecidableEq, Repr

instance : Inhabited OrderLine := ⟨⟨"", 0, 0, []⟩⟩

/-- The loop body of `SharedMemory._update_order_total`:
`total = Σ quantity * price` accumulated left to right. -/
def lineSum (lines : List OrderLine) : ℚ :=
  lines.foldl (fun acc it => acc + (it.quantity : ℚ) * it.price) 0

/-- The fields of the `SharedMemory` dataclass that the ledger /
state-machine core reads or writes (`src/models/shared_memory.py`). -/
structure SharedMemory where
  customer_intent : String
  conversation_stage : String
  needs_human_intervention : Bool
  intervention_reason : String
  current_order : List OrderLine
  order_status : String
  order_total : ℚ
  delivery_method : String
  last_action : String
  upsell_attempts : Nat
  max_upsell_attempts : Nat
  menu_displayed : Bool
  error_count : Nat
  last_error : String
deriving DecidableEq, Repr

/-- The dataclass defaults of `SharedMemory`
(`delivery_method` is `""` until set). -/
def SharedMemory.init : SharedMemory where
  customer_intent := "GREETING"
  conversation_stage := "greeting"
  needs_human_intervention := false
  intervention_reason := ""
  current_order := []
  order_status := "IN_PROGRESS"
  order_total := 0
  delivery_method := ""
  last_action := ""
  upsell_attempts := 0
  max_upsell_attempts := 2
  menu_displayed := false
  error_count := 0
  last_error := ""

/-- `SharedMemory._update_order_total`: recompute the stored total as
`(Σ quantity*price) * 1.08` (8% tax). -/
def SharedMemory.updateOrderTotal (m : SharedMemory) : SharedMemory :=
  { m with order_total := lineSum m.current_order * (108 / 100) }

/-- The merge loop of `SharedMemory.add_order_item`: scan the ledger for a
line with the same `name` and the same `customizations`; on the first hit
add the new quantity to it and stop (`some` = merged ledger), otherwise
report `none`. -/
def addLoop (item : OrderLine) : List OrderLine → Option (List OrderLine)
  | [] => none
  | ex :: rest =>
    if ex.name = item.name ∧ ex.customizations = item.customizations then
      some ({ ex with quantity := ex.quantity + item.quantity } :: rest)
    else
      (addLoop item rest).map (ex :: ·)

/-- `SharedMemory.add_order_item`.  NOTE (faithful to the source): on the
merge branch the Python method `return`s before `_update_order_total` is
called, so the stored total is left unchanged; only the append branch
recomputes it. -/
def SharedMemory.addOrderItem (m : SharedMemory) (item : OrderLine) : SharedMemory :=
  match addLoop item m.current_order with
  | some merged => { m with current_order := merged }
  | none =>
    SharedMemory.updateOrderTotal { m with current_order := m.current_order ++ [item] }

/-- `SharedMemory.remove_order_item`: delete the first line whose name
equals `itemName` case-insensitively, recompute the total and return
`true`; return `false` (state unchanged) when no line matches. -/
def SharedMemory.removeOrderItem (m : SharedMemory) (itemName : String) :
    SharedMemory × Bool :=
  match pyFindIdx (fun it => strLower it.name = strLower itemName) m.current_order with
  | some i =>
    (SharedMemory.updateOrderTotal { m with current_order := m.current_order.eraseIdx i },
     true)
  | none => (m, false)

/-- `SharedMemory.clear_order`. -/
def SharedMemory.clearOrder (m : SharedMemory) : SharedMemory :=
  { m with current_order := [], order_total := 0, order_status := "IN_PROGRESS" }

/-- `SharedMemory.set_customer_intent`. -/
def SharedMemory.setCustomerIntent (m : SharedMemory) (intent reason : String) :
    SharedMemory :=
  { m with customer_intent := intent,
           last_action := "Intent changed to " ++ intent ++ ": " ++ reason }

/-- `SharedMemory.trigger_human_intervention`. -/
def SharedMemory.triggerHumanIntervention (m : SharedMemory) (reason : String) :
    SharedMemory :=
  { m with needs_human_intervention := true,
           intervention_reason := reason,
           last_action := "Human intervention requested: " ++ reason }

/-- `SharedMemory.increment_error`: bump the error counter, remember the
message, and auto-trigger human intervention once the count reaches 3. -/
def SharedMemory.incrementError (m : SharedMemory) (errorMessage : String) :
    SharedMemory :=
  let m1 := { m with error_count := m.error_count + 1, last_error := errorMessage }
  if m1.error_count ≥ 3 then
    m1.triggerHumanIntervention ("Multiple errors occurred: " ++ errorMessage)
  else
    m1

/-! ### Menu lookup (`src/agents/order_agent.py`) -/

/-- A menu entry as read from the menu JSON (only the fields the order
logic reads: `name` and `price`). -/
structure MenuItem where
  name : String
  price : ℚ
deriving DecidableEq, Repr

/-- The hard-coded `intelligent_matches` table of
`OrderAgent._find_best_menu_match`, in source order. -/
def intelligentMatches : List (String × String) :=
  [("coc", "Coca Cola"),
   ("coca", "Coca Cola"),
   ("burger", "Classic Burger"),
   ("pizza", "Margherita Pizza"),
   ("wings", "Buffalo Wings"),
   ("pasta", "Pasta Carbonara"),
   ("salmon", "Grilled Salmon"),
   ("salad", "Caesar Salad"),
   ("cheesecake", "New York Cheesecake"),
   ("ice cream", "Vanilla Ice Cream")]

/-- The third phase of `_find_best_menu_match`: walk the
`intelligent_matches` table; when a key occurs in the lowered name, return
the menu item with that canonical name if the menu has it, otherwise keep
scanning the table. -/
def intelligentLookup (menu : List MenuItem) (lowerName : String) :
    List (String × String) → Option MenuItem
  | [] => none
  | (key, menuName) :: rest =>
    if strContains lowerName key then
      match pyFind (fun it => it.name = menuName) menu with
      | some it => some it
      | none => intelligentLookup menu lowerName rest
    else
      intelligentLookup menu lowerName rest

/-- `OrderAgent._find_best_menu_match`: exact case-insensitive match, then
substring match in either direction, then the `intelligent_matches`
table. -/
def findBestMenuMatch (menu : List MenuItem) (itemName : String) : Option MenuItem :=
  let lower := strLower itemName
  match pyFind (fun it => strLower it.name = lower) menu with
  | some it => some it
  | none =>
    match pyFind
        (fun it => strContains (strLower it.name) lower || strContains lower (strLower it.name))
        menu with
    | some it => some it
    | none => intelligentLookup menu lower intelligentMatches

/-! ### Item normalization and order processing (`src/agents/order_agent.py`) -/

/-- A raw item dict as produced by the LLM / router.  `none` in `quantity`
(resp. `price`) models both a missing key and a value `int()` (resp.
`float()`) fails on; the name keys mirror the alternatives probed by
`_normalize_order_item`. -/
structure RawItem where
  name : Option String := none
  item_name : Option String := none
  menu_name : Option String := none
  title : Option String := none
  product : Option String := none
  quantity : Option Int := none
  price : Option ℚ := none
  customizations : List String := []
deriving DecidableEq, Repr

/-- Python's `a or b` for strings where `None` and `""` are falsy. -/
def pyOrStr (a : Option String) (b : String) : String :=
  match a with
  | some s => if s = "" then b else s
  | none => b

/-- `OrderAgent._normalize_order_item`: resolve the name from the
alternative keys, coerce the quantity to a positive integer (default 1),
resolve the canonical name and a fallback price from the menu, take the
given price only when it is positive, and strip/drop empty
customizations.  Returns `none` when no non-empty name is found. -/
def normalizeOrderItem (menu : List MenuItem) (raw : RawItem) : Option OrderLine :=
  let name0 :=
    pyOrStr raw.name (pyOrStr raw.item_name (pyOrStr raw.menu_name
      (pyOrStr raw.title (pyOrStr raw.product ""))))
  let name := strStrip name0
  if name = "" then none
  else
    let quantity : Int :=
      match raw.quantity with
      | some q => if q ≤ 0 then 1 else q
      | none => 1
    let menuItem := findBestMenuMatch menu name
    let canonicalName :=
      match menuItem with
      | some mi => mi.name
      | none => name
    let fallbackPrice : ℚ :=
      match menuItem with
      | some mi => mi.price
      | none => 0
    let price : ℚ :=
      match raw.price with
      | some p => if p ≤ 0 then fallbackPrice else p
      | none => fallbackPrice
    let customizations := (raw.customizations.map strStrip).filter (fun c => ¬ c = "")
    some { name := canonicalName, quantity := quantity, price := price,
           customizations := customizations }

/-- The shared-memory effect of
`OrderAgent.process_order_with_extracted_items` when the LLM call
succeeds: each item of the model's `added_items` is normalized and added
to the ledger, and when at least one item normalized the customer intent
is set to `ORDERING` (the LLM response itself is the `addedItems`
parameter; the returned message is display output). -/
def processAddItems (menu : List MenuItem) (m : SharedMemory)
    (addedItems : List RawItem) : SharedMemory :=
  let m1 := addedItems.foldl
    (fun acc raw =>
      match normalizeOrderItem menu raw with
      | some it => acc.addOrderItem it
      | none => acc) m
  if addedItems.any (fun raw => (normalizeOrderItem menu raw).isSome) then
    m1.setCustomerIntent "ORDERING" "Items added to order"
  else
    m1

/-- An extracted item dict as consumed by
`OrderAgent._fallback_order_processing` (keys `item_name`, `quantity`,
`confidence`, `customizations`; `alternatives` is display-only). -/
structure ExtractedItem where
  item_name : String := ""
  quantity : Int := 1
  confidence : ℚ := 1 / 2
  customizations : List String := []
deriving DecidableEq, Repr

/-- The shared-memory effect of `OrderAgent._fallback_order_processing`:
for each extracted item with a menu match and confidence above 0.6, add
the line to the ledger with the *raw* extracted quantity (the Python code
performs no quantity validation here; the dict's decorative `"total"` key
is never read back). -/
def fallbackOrderProcessing (menu : List MenuItem) (m : SharedMemory)
    (extractedItems : List ExtractedItem) : SharedMemory :=
  extractedItems.foldl
    (fun acc it =>
      match findBestMenuMatch menu it.item_name with
      | some mi =>
        if it.confidence > (6 / 10 : ℚ) then
          acc.addOrderItem
            { name := mi.name, quantity := it.quantity, price := mi.price,
              customizations := it.customizations }
        else acc
      | none => acc) m

/-- The LLM outcome inside `process_order_with_extracted_items`: either a
structured response listing `added_items`, or an exception that routes to
`_fallback_order_processing`. -/
inductive OrderProcessOutcome where
  | llm (addedItems : List RawItem)
  | failed
deriving DecidableEq, Repr

/-- `OrderAgent.process_order_with_extracted_items` (shared-memory
effect): the try-branch adds the LLM's items, the except-branch runs the
fallback on the router's extracted items.  No conversation-stage or
order-status guard exists on this path. -/
def processOrderWithExtractedItems (menu : List MenuItem) (m : SharedMemory)
    (outcome : OrderProcessOutcome) (extractedItems : List ExtractedItem) :
    SharedMemory :=
  match outcome with
  | .llm addedItems => processAddItems menu m addedItems
  | .failed => fallbackOrderProcessing menu m extractedItems

/-! ### Deterministic order modification
(`OrderAgent.handle_order_modification`).  The regex engine is external
machinery: the lists `removals`, `qtySets` and `noItems` stand for the
successive matches that `re.findall` / `re.finditer` yield on the input
text (a removal match is its optional quantity and item text, a
quantity-set match is the parsed new quantity and item text).  The
completed-guard and the cancellation keyword scan are embedded exactly. -/

/-- The target-name resolution at the top of the inner helper
`find_order_item_by_text`: canonical menu name when the menu matches,
otherwise the stripped text. -/
def resolveTargetName (menu : List MenuItem) (nameText : String) : String :=
  match findBestMenuMatch menu nameText with
  | some mi => mi.name
  | none => strStrip nameText

/-- `find_order_item_by_text`, returning the index of the located line:
first an exact case-insensitive name match, then a substring match in
either direction. -/
def findOrderItemIdx (menu : List MenuItem) (order : List OrderLine)
    (nameText : String) : Option Nat :=
  let target := resolveTargetName menu nameText
  match pyFindIdx (fun it => strLower it.name = strLower target) order with
  | some i => some i
  | none =>
    pyFindIdx
      (fun it => strContains (strLower it.name) (strLower target) ||
                 strContains (strLower target) (strLower it.name))
      order

/-- One removal match (`remove/delete/take off/drop ...`): with no
quantity, or a quantity at least the line's, the whole line is deleted;
with a smaller quantity the line's quantity is reduced.  The pair's `Bool`
is the `modified` flag. -/
def applyRemovalMatch (menu : List MenuItem) (acc : List OrderLine × Bool)
    (qtyOpt : Option Int) (itemTxt : String) : List OrderLine × Bool :=
  match findOrderItemIdx menu acc.1 itemTxt with
  | some i =>
    let item := acc.1.getD i default
    match qtyOpt with
    | none => (acc.1.eraseIdx i, true)
    | some q =>
      if q ≥ item.quantity then (acc.1.eraseIdx i, true)
      else (acc.1.set i { item with quantity := item.quantity - q }, true)
  | none => acc

/-- One quantity-set match (`make that 2 ... / change ... to 3`): negative
parses clamp to 0, quantity 0 deletes the line, otherwise the line's
quantity is overwritten. -/
def applyQtySetMatch (menu : List MenuItem) (acc : List OrderLine × Bool)
    (newQty0 : Int) (itemTxt : String) : List OrderLine × Bool :=
  let newQty := if newQty0 ≤ 0 then 0 else newQty0
  match findOrderItemIdx menu acc.1 itemTxt with
  | some i =>
    let item := acc.1.getD i default
    if newQty = 0 then (acc.1.eraseIdx i, true)
    else (acc.1.set i { item with quantity := newQty }, true)
  | none => acc

/-- One `no <item>` match: delete the located line. -/
def applyNoRemoval (menu : List MenuItem) (acc : List OrderLine × Bool)
    (itemTxt : String) : List OrderLine × Bool :=
  match findOrderItemIdx menu acc.1 itemTxt with
  | some i => (acc.1.eraseIdx i, true)
  | none => acc

/-- The cancellation keywords scanned by `handle_order_modification`. -/
def cancelKeywords : List String :=
  ["cancel my order", "cancel order", "cancel it", "forget my order",
   "abort order", "nevermind, cancel"]

/-- `OrderAgent.handle_order_modification` (shared-memory effect): refuse
edits once the stage is `completed` or the status `COMPLETE`/`CONFIRMED`;
clear the order on a cancellation keyword; otherwise apply the parsed
removal, quantity-set and (only when still unmodified) `no <item>`
matches, and when anything changed drop the lines with non-positive
quantity and recompute the total.  The trailing LLM fallback leaves the
state unchanged. -/
def handleOrderModification (menu : List MenuItem) (m : SharedMemory)
    (customerInput : String) (removals : List (Option Int × String))
    (qtySets : List (Int × String)) (noItems : List String) : SharedMemory :=
  if m.conversation_stage = "completed" ∨ m.order_status = "COMPLETE" ∨
      m.order_status = "CONFIRMED" then m
  else
    let text := strLower (strStrip customerInput)
    if cancelKeywords.any (fun kw => strContains text kw) then m.clearOrder
    else
      let s1 := removals.foldl
        (fun acc qi => applyRemovalMatch menu acc qi.1 qi.2) (m.current_order, false)
      let s2 := qtySets.foldl
        (fun acc qs => applyQtySetMatch menu acc qs.1 qs.2) s1
      let s3 := if s2.2 then s2
        else noItems.foldl (fun acc t => applyNoRemoval menu acc t) s2
      if s3.2 then
        SharedMemory.updateOrderTotal
          { m with current_order := s3.1.filter (fun it => it.quantity > 0) }
      else m

/-! ### Order summary and completion check (`src/agents/order_agent.py`) -/

/-- The subtotal loop of `OrderAgent.get_order_summary`:
`sum(price * quantity)`. -/
def sumPriceQty (lines : List OrderLine) : ℚ :=
  lines.foldl (fun acc it => acc + it.price * (it.quantity : ℚ)) 0

/-- The `totals` entry of `OrderAgent.get_order_summary`:
`(subtotal, tax, total)`, all zero for an empty ledger. -/
def getOrderSummaryTotals (m : SharedMemory) : ℚ × ℚ × ℚ :=
  if m.current_order.isEmpty then (0, 0, 0)
  else
    let subtotal := sumPriceQty m.current_order
    let tax := subtotal * (8 / 100)
    (subtotal, tax, subtotal + tax)

/-- The `ready` field of `OrderAgent.validate_order_completion`: a
non-empty ledger and a positive stored total. -/
def validateOrderCompletionReady (m : SharedMemory) : Bool :=
  ¬ m.current_order.isEmpty ∧ ¬ m.order_total ≤ 0

/-! ### The `Order` / `OrderItem` dataclasses (`src/models/order_models.py`) -/

/-- `OrderItem` dataclass (fields read by the pricing methods). -/
structure OrderItem where
  name : String
  quantity : Int
  price : ℚ
  customizations : List String := []
deriving DecidableEq, Repr

/-- `OrderItem.get_total_price`. -/
def OrderItem.getTotalPrice (it : OrderItem) : ℚ :=
  it.price * (it.quantity : ℚ)

/-- `Order` dataclass (fields read by the cited methods; `tax_rate`
defaults to 0.08). -/
structure Order where
  items : List OrderItem := []
  status : String := "pending"
  tax_rate : ℚ := 8 / 100
deriving DecidableEq, Repr

/-- The merge loop of `Order.add_item` (same name and customizations ⇒
quantities are summed in place). -/
def orderModelAddLoop (item : OrderItem) : List OrderItem → Option (List OrderItem)
  | [] => none
  | ex :: rest =>
    if ex.name = item.name ∧ ex.customizations = item.customizations then
      some ({ ex with quantity := ex.quantity + item.quantity } :: rest)
    else
      (orderModelAddLoop item rest).map (ex :: ·)

/-- `Order.add_item`. -/
def Order.addItem (o : Order) (item : OrderItem) : Order :=
  match orderModelAddLoop item o.items with
  | some merged => { o with items := merged }
  | none => { o with items := o.items ++ [item] }

/-- `Order.remove_item`. -/
def Order.removeItem (o : Order) (itemName : String) : Order × Bool :=
  match pyFindIdx (fun it => strLower it.name = strLower itemName) o.items with
  | some i => ({ o with items := o.items.eraseIdx i }, true)
  | none => (o, false)

/-- `Order.get_subtotal`. -/
def Order.getSubtotal (o : Order) : ℚ :=
  o.items.foldl (fun acc it => acc + it.getTotalPrice) 0

/-- `Order.get_tax_amount`. -/
def Order.getTaxAmount (o : Order) : ℚ :=
  o.getSubtotal * o.tax_rate

/-- `Order.get_total`. -/
def Order.getTotal (o : Order) : ℚ :=
  o.getSubtotal + o.getTaxAmount

/-! ### Coordinator (`src/agents/new_coordinator_agent.py`).
The router's LLM decision is the `RouteDecision` parameter; `""` in
`delivery_method` / `clarification_question` models Python `None`. -/

/-- The fields of the router's `RouteDecision` that the coordinator
reads. -/
structure RouteDecision where
  agent : String := "menu"
  extracted_items : List ExtractedItem := []
  user_intent : String := ""
  needs_clarification : Bool := false
  delivery_method : String := ""
  wants_order_change : Bool := false
deriving DecidableEq, Repr

/-- `NewCoordinatorAgent._handle_menu_request` (state effect): intent
becomes `BROWSING`; the menu-displayed flag is set when the input mentions
`menu` or `show`. -/
def handleMenuRequest (m : SharedMemory) (userInput : String) : SharedMemory :=
  let m1 := m.setCustomerIntent "BROWSING" "User browsing menu"
  if strContains (strLower userInput) "menu" ||
     strContains (strLower userInput) "show" then
    { m1 with menu_displayed := true }
  else m1

/-- `NewCoordinatorAgent._handle_order_request` (state effect): intent
becomes `ORDERING`; a `MODIFY_ORDER` intent runs the deterministic
modification handler, otherwise non-empty extracted items run order
processing (the `awaiting_delivery` check only decorates the response). -/
def handleOrderRequest (menu : List MenuItem) (m : SharedMemory)
    (rd : RouteDecision) (userInput : String)
    (removals : List (Option Int × String)) (qtySets : List (Int × String))
    (noItems : List String) (outcome : OrderProcessOutcome) : SharedMemory :=
  let m0 := m.setCustomerIntent "ORDERING" "User placing or modifying order"
  if rd.user_intent = "MODIFY_ORDER" then
    handleOrderModification menu m0 userInput removals qtySets noItems
  else if ¬ rd.extracted_items.isEmpty then
    processOrderWithExtractedItems menu m0 outcome rd.extracted_items
  else m0

/-- `NewCoordinatorAgent._handle_upselling_request` (state effect): with a
non-empty order and fewer than `max_upsell_attempts` attempts, a
successful suggestion call bumps the counter (`upsellOk` models the
`suggest_upsell` call not raising). -/
def handleUpsellingRequest (m : SharedMemory) (upsellOk : Bool) : SharedMemory :=
  if m.current_order.isEmpty then m
  else if m.upsell_attempts ≥ m.max_upsell_attempts then m
  else if upsellOk then { m with upsell_attempts := m.upsell_attempts + 1 }
  else m

/-- `NewCoordinatorAgent._handle_finalization_request` (state effect): a
`CANCEL_ORDER` change request clears the order and resets intent/stage to
greeting; otherwise intent becomes `FINALIZING` and, when the order
validates, the stage advances to `awaiting_delivery` with intent
`DELIVERY_METHOD`. -/
def handleFinalizationRequest (m : SharedMemory) (rd : RouteDecision) : SharedMemory :=
  if rd.wants_order_change ∧ rd.user_intent = "CANCEL_ORDER" then
    let m1 := m.clearOrder
    let m2 := m1.setCustomerIntent "GREETING" "Order cancelled by user"
    { m2 with conversation_stage := "greeting" }
  else
    let m1 := m.setCustomerIntent "FINALIZING" "User finalizing order"
    if ¬ validateOrderCompletionReady m1 then m1
    else
      let m2 := { m1 with conversation_stage := "awaiting_delivery" }
      m2.setCustomerIntent "DELIVERY_METHOD" "Waiting for delivery method choice"

/-- `NewCoordinatorAgent._handle_delivery_request` (state effect): an
order-change request either runs the deterministic modification handler
(staying in `awaiting_delivery`) or cancels (reset to greeting); otherwise
a detected delivery method completes the order, and without one the state
is unchanged. -/
def handleDeliveryRequest (menu : List MenuItem) (m : SharedMemory)
    (rd : RouteDecision) (userInput : String)
    (removals : List (Option Int × String)) (qtySets : List (Int × String))
    (noItems : List String) : SharedMemory :=
  if rd.wants_order_change ∧ rd.user_intent = "MODIFY_ORDER" then
    let m1 := handleOrderModification menu m userInput removals qtySets noItems
    let m2 := { m1 with conversation_stage := "awaiting_delivery" }
    m2.setCustomerIntent "DELIVERY_METHOD" "Waiting for delivery method choice"
  else if rd.wants_order_change ∧ rd.user_intent = "CANCEL_ORDER" then
    let m1 := m.clearOrder
    let m2 := m1.setCustomerIntent "GREETING" "Order cancelled by user"
    { m2 with conversation_stage := "greeting" }
  else if ¬ rd.delivery_method = "" then
    let m1 := { m with delivery_method := rd.delivery_method,
                       conversation_stage := "completed" }
    m1.setCustomerIntent "COMPLETED" ("Order completed with " ++ rd.delivery_method)
  else m

/-- `NewCoordinatorAgent._post_process_response` (state effect): after an
order-agent turn with a non-empty ledger and remaining upsell budget, the
upsell counter is bumped (the appended suggestion text is display
output). -/
def postProcessResponse (m : SharedMemory) (agentIsOrder : Bool) : SharedMemory :=
  if agentIsOrder ∧ ¬ m.current_order.isEmpty ∧
      m.upsell_attempts < m.max_upsell_attempts then
    { m with upsell_attempts := m.upsell_attempts + 1 }
  else m

/-- One conversation turn of `NewCoordinatorAgent.process_user_input`:
the router picks an agent (or clarification / human intervention, which
leave this state unchanged), the handler runs, and
`_post_process_response` runs with the routed agent name.  The exception
path increments the error counter. -/
inductive Step (menu : List MenuItem) : SharedMemory → SharedMemory → Prop where
  | unchanged (m : SharedMemory) : Step menu m m
  | menuReq (m : SharedMemory) (userInput : String) :
      Step menu m (postProcessResponse (handleMenuRequest m userInput) false)
  | orderReq (m : SharedMemory) (rd : RouteDecision) (userInput : String)
      (removals : List (Option Int × String)) (qtySets : List (Int × String))
      (noItems : List String) (outcome : OrderProcessOutcome) :
      Step menu m (postProcessResponse
        (handleOrderRequest menu m rd userInput removals qtySets noItems outcome) true)
  | upsellReq (m : SharedMemory) (upsellOk : Bool) :
      Step menu m (postProcessResponse (handleUpsellingRequest m upsellOk) false)
  | finalizeReq (m : SharedMemory) (rd : RouteDecision) :
      Step menu m (postProcessResponse (handleFinalizationRequest m rd) false)
  | deliveryReq (m : SharedMemory) (rd : RouteDecision) (userInput : String)
      (removals : List (Option Int × String)) (qtySets : List (Int × String))
      (noItems : List String) :
      Step menu m (postProcessResponse
        (handleDeliveryRequest menu m rd userInput removals qtySets noItems) false)
  | errorStep (m : SharedMemory) (msg : String) :
      Step menu m (m.incrementError msg)

/-- The session states reachable from a fresh `SharedMemory` through
conversation turns. -/
inductive Reachable (menu : List MenuItem) : SharedMemory → Prop where
  | init : Reachable menu SharedMemory.init
  | step {m m' : SharedMemory} :
      Reachable menu m → Step menu m m' → Reachable menu m'

/-- The merge key of `add_order_item`: same `name`, same `customizations`
(as a Bool predicate, for locating the first matching line). -/
def sameLineKey (item ex : OrderLine) : Bool :=
  ex.name = item.name ∧ ex.customizations = item.customizations

/-! ## Helper lemmas -/

theorem pyFind_mem {α : Type} (p : α → Bool) :
    ∀ {l : List α} {x : α}, pyFind p l = some x → x ∈ l := by
  intro l
  induction l with
  | nil => intro x h; simp [pyFind] at h
  | cons a as ih =>
    intro x h
    by_cases hp : p a
    · simp [pyFind, hp] at h; simp [h]
    · simp [pyFind, hp] at h
      exact List.mem_cons_of_mem a (ih h)

theorem pyFindIdx_none {α : Type} (p : α → Bool) :
    ∀ {l : List α}, pyFindIdx p l = none ↔ ∀ x ∈ l, p x = false := by
  intro l
  induction l with
  | nil => simp [pyFindIdx]
  | cons a as ih =>
    by_cases hp : p a
    · simp [pyFindIdx, hp]
    · simp [pyFindIdx, hp, ih]

theorem pyFindIdx_some_spec {α : Type} [Inhabited α] (p : α → Bool) :
    ∀ {l : List α} {i : Nat}, pyFindIdx p l = some i →
      i < l.length ∧ p (l.getD i default) = true ∧
      ∀ j, j < i → p (l.getD j default) = false := by
  intro l
  induction l with
  | nil => intro i h; simp [pyFindIdx] at h
  | cons a as ih =>
    intro i h
    by_cases hp : p a
    · simp [pyFindIdx, hp] at h
      subst h
      simpa using hp
    · simp [pyFindIdx, hp] at h
      obtain ⟨j, hj, rfl⟩ := h
      obtain ⟨h1, h2, h3⟩ := ih hj
      refine ⟨by simpa using h1, by simpa using h2, ?_⟩
      intro k hk
      cases k with
      | zero => simpa using hp
      | succ k' => simpa using h3 k' (by omega)

theorem filter_eq_nil_of {α : Type} (p : α → Bool) :
    ∀ (l : List α), (∀ x ∈ l, p x = false) → l.filter p = [] := by
  intro l
  induction l with
  | nil => intro; rfl
  | cons a as ih =>
    intro h
    have ha := h a (by simp)
    have hrest : as.filter p = [] := ih fun x hx => h x (List.mem_cons_of_mem a hx)
    simp [List.filter_cons, ha, hrest]

theorem filter_eraseIdx_nil {α : Type} [Inhabited α] (p : α → Bool) :
    ∀ (l : List α) (i : Nat), (l.filter p).length ≤ 1 →
      pyFindIdx p l = some i → (l.eraseIdx i).filter p = [] := by
  intro l
  induction l with
  | nil => intro i _ h; simp [pyFindIdx] at h
  | cons a as ih =>
    intro i hlen h
    by_cases hp : p a
    · simp [pyFindIdx, hp] at h
      subst h
      have hcons : (a :: as).filter p = a :: as.filter p := by
        simp [List.filter_cons, hp]
      rw [hcons] at hlen
      simp only [List.length_cons] at hlen
      have hnil : as.filter p = [] := List.length_eq_zero.mp (by omega)
      simpa using hnil
    · simp [pyFindIdx, hp] at h
      obtain ⟨j, hj, rfl⟩ := h
      have hcons : (a :: as).filter p = as.filter p := by
        simp [List.filter_cons, hp]
      rw [hcons] at hlen
      have hres := ih j hlen hj
      have hgoal : ((a :: as).eraseIdx (j + 1)).filter p = (as.eraseIdx j).filter p := by
        show (a :: as.eraseIdx j).filter p = (as.eraseIdx j).filter p
        simp [List.filter_cons, hp]
      rw [hgoal]
      exact hres

theorem addLoop_none (item : OrderLine) :
    ∀ {l : List OrderLine}, addLoop item l = none ↔
      ∀ ex ∈ l, sameLineKey item ex = false := by
  intro l
  induction l with
  | nil => simp [addLoop]
  | cons a as ih =>
    by_cases hp : a.name = item.name ∧ a.customizations = item.customizations
    · simp [addLoop, hp, sameLineKey]
    · simp [addLoop, hp, ih, sameLineKey]
      exact fun _ hn hc => hp ⟨hn, hc⟩

theorem addLoop_some (item : OrderLine) :
    ∀ {l : List OrderLine} {i : Nat},
      pyFindIdx (sameLineKey item) l = some i →
      addLoop item l = some (l.set i
        { l.getD i default with
          quantity := (l.getD i default).quantity + item.quantity }) := by
  intro l
  induction l with
  | nil => intro i h; simp [pyFindIdx] at h
  | cons a as ih =>
    intro i h
    by_cases hp : a.name = item.name ∧ a.customizations = item.customizations
    · have hk : sameLineKey item a = true := by simp [sameLineKey, hp]
      simp [pyFindIdx, hk] at h
      subst h
      simp [addLoop, hp]
    · have hk : sameLineKey item a = false := by
        simp [sameLineKey]
        exact fun hn hc => hp ⟨hn, hc⟩
      simp [pyFindIdx, hk] at h
      obtain ⟨j, hj, rfl⟩ := h
      simp [addLoop, hp, ih hj]

theorem foldl_add_eq_sum {α : Type} (f : α → ℚ) :
    ∀ (l : List α) (a : ℚ),
      l.foldl (fun acc x => acc + f x) a = a + (l.map f).sum := by
  intro l
  induction l with
  | nil => intro a; simp
  | cons x xs ih => intro a; simp [ih, add_assoc]

theorem lineSum_eq_sum (lines : List OrderLine) :
    lineSum lines = (lines.map (fun it => (it.quantity : ℚ) * it.price)).sum := by
  simpa using foldl_add_eq_sum (fun it : OrderLine => (it.quantity : ℚ) * it.price) lines 0

theorem sumPriceQty_eq_sum (lines : List OrderLine) :
    sumPriceQty lines = (lines.map (fun it => it.price * (it.quantity : ℚ))).sum := by
  simpa using foldl_add_eq_sum (fun it : OrderLine => it.price * (it.quantity : ℚ)) lines 0

theorem string_append_ne_empty (s t : String) (h : s.length > 0) : ¬ s ++ t = "" := by
  intro he
  have : (s ++ t).length = 0 := by rw [he]; rfl
  rw [String.length_append] at this
  omega

/-! ## Claims -/

/-- C1: the spec invariant says that after every mutating operation the
stored `order_total` equals 1.08 times the sum of quantity×price over the
current lines.  The merge branch of `add_order_item` violates this: adding
"Classic Burger" (qty 1, price 10) twice leaves `order_total` at 10.8
(the value recomputed after the first, appending add) while the ledger
holds quantity 2, so 1.08×Σ = 21.6 ≠ 10.8.  The early `return` in the
merge branch skips `_update_order_total`, contradicting the invariant the
rest of the class maintains. -/
theorem claim_C1 :
    ((SharedMemory.init.addOrderItem ⟨"Classic Burger", 1, 10, []⟩).addOrderItem
        ⟨"Classic Burger", 1, 10, []⟩).order_total = 54 / 5 ∧
    lineSum ((SharedMemory.init.addOrderItem ⟨"Classic Burger", 1, 10, []⟩).addOrderItem
        ⟨"Classic Burger", 1, 10, []⟩).current_order = 20 ∧
    ¬ ((SharedMemory.init.addOrderItem ⟨"Classic Burger", 1, 10, []⟩).addOrderItem
        ⟨"Classic Burger", 1, 10, []⟩).order_total =
      lineSum ((SharedMemory.init.addOrderItem ⟨"Classic Burger", 1, 10, []⟩).addOrderItem
        ⟨"Classic Burger", 1, 10, []⟩).current_order * (108 / 100) := by
  norm_num [SharedMemory.addOrderItem, addLoop, SharedMemory.init,
    SharedMemory.updateOrderTotal, lineSum]

/-- C8: whenever `increment_error` leaves the error count at 3 or more,
the human-intervention flag is set and the intervention reason is
non-empty immediately after the call. -/
theorem claim_C8 (m : SharedMemory) (msg : String)
    (h : 3 ≤ (m.incrementError msg).error_count) :
    (m.incrementError msg).needs_human_intervention = true ∧
    ¬ (m.incrementError msg).intervention_reason = "" := by
  by_cases h3 : m.error_count + 1 ≥ 3
  · simp [SharedMemory.incrementError, SharedMemory.triggerHumanIntervention, h3]
    exact string_append_ne_empty "Multiple errors occurred: " msg (by decide)
  · exfalso
    simp [SharedMemory.incrementError, h3] at h

/-- C8 witness: a session with two prior errors escalates on the third. -/
theorem claim_C8_witness :
    (({ SharedMemory.init with error_count := 2 }).incrementError
        "boom").needs_human_intervention = true ∧
    ¬ (({ SharedMemory.init with error_count := 2 }).incrementError
        "boom").intervention_reason = "" :=
  claim_C8 { SharedMemory.init with error_count := 2 } "boom" (by decide)

theorem getD_mem_of_lt {α : Type} [Inhabited α] :
    ∀ (l : List α) (i : Nat), i < l.length → l.getD i default ∈ l := by
  intro l
  induction l with
  | nil => intro i h; simp at h
  | cons a as ih =>
    intro i h
    cases i with
    | zero => simp
    | succ j =>
      simp only [List.getD_cons_succ]
      exact List.mem_cons_of_mem a (ih j (by simpa using h))

theorem forall_not_of_filter_nil {α : Type} (p : α → Bool) {l : List α}
    (h : l.filter p = []) : ∀ x ∈ l, p x = false := by
  intro x hx
  by_contra hbad
  have : x ∈ l.filter p := List.mem_filter.mpr ⟨hx, by simpa using hbad⟩
  rw [h] at this
  simp at this

/-- C4: `add_order_item` merges an incoming item into the first existing
line with the same `(name, customizations)` pair by summing quantities
(leaving the line count unchanged), and appends the item as a new line
exactly when no such line exists. -/
theorem claim_C4 (m : SharedMemory) (item : OrderLine) :
    ((∀ ex ∈ m.current_order, sameLineKey item ex = false) →
      (m.addOrderItem item).current_order = m.current_order ++ [item]) ∧
    (∀ i, pyFindIdx (sameLineKey item) m.current_order = some i →
      (m.addOrderItem item).current_order =
        m.current_order.set i
          { m.current_order.getD i default with
            quantity := (m.current_order.getD i default).quantity + item.quantity } ∧
      (m.addOrderItem item).current_order.length = m.current_order.length) := by
  constructor
  · intro h
    have hnone : addLoop item m.current_order = none := (addLoop_none item).mpr h
    simp [SharedMemory.addOrderItem, hnone, SharedMemory.updateOrderTotal]
  · intro i hfind
    have hsome := addLoop_some item hfind
    constructor
    · simp [SharedMemory.addOrderItem, hsome]
    · simp [SharedMemory.addOrderItem, hsome]

/-- C4 witness: adding "Coca Cola" to an empty ledger appends it; adding
it again to a ledger already holding two merges to quantity three. -/
theorem claim_C4_witness :
    ((SharedMemory.init.addOrderItem ⟨"Coca Cola", 1, 3, []⟩).current_order =
      SharedMemory.init.current_order ++ [⟨"Coca Cola", 1, 3, []⟩]) ∧
    (({ SharedMemory.init with
        current_order := [⟨"Coca Cola", 2, 3, []⟩] }.addOrderItem
          ⟨"Coca Cola", 1, 3, []⟩).current_order = [⟨"Coca Cola", 3, 3, []⟩]) := by
  constructor
  · exact (claim_C4 SharedMemory.init ⟨"Coca Cola", 1, 3, []⟩).1 (by decide)
  · have h := ((claim_C4
      { SharedMemory.init with current_order := [⟨"Coca Cola", 2, 3, []⟩] }
      ⟨"Coca Cola", 1, 3, []⟩).2 0 (by decide)).1
    rw [h]
    decide

/-- C9: `remove_order_item` returns `true` exactly when some line's name
equals the argument case-insensitively; when the first such line sits at
index `i` it deletes precisely that line (customizations play no role in
the match) and recomputes the total, and when no line matches it returns
`false` with the state (ledger and total) completely unchanged. -/
theorem claim_C9 (m : SharedMemory) (n : String) :
    ((m.removeOrderItem n).2 = true ↔
      ∃ it ∈ m.current_order, strLower it.name = strLower n) ∧
    (∀ i, pyFindIdx (fun it => strLower it.name = strLower n) m.current_order = some i →
      m.removeOrderItem n =
        (SharedMemory.updateOrderTotal
          { m with current_order := m.current_order.eraseIdx i }, true) ∧
      strLower (m.current_order.getD i default).name = strLower n ∧
      ∀ j, j < i → ¬ strLower (m.current_order.getD j default).name = strLower n) ∧
    (pyFindIdx (fun it => strLower it.name = strLower n) m.current_order = none →
      m.removeOrderItem n = (m, false)) := by
  refine ⟨⟨?_, ?_⟩, ?_, ?_⟩
  · intro htrue
    cases hfind : pyFindIdx (fun it => strLower it.name = strLower n) m.current_order with
    | none => simp [SharedMemory.removeOrderItem, hfind] at htrue
    | some i =>
      obtain ⟨hlt, hp, _⟩ := pyFindIdx_some_spec _ hfind
      exact ⟨m.current_order.getD i default, getD_mem_of_lt _ _ hlt, by simpa using hp⟩
  · rintro ⟨it, hmem, hname⟩
    cases hfind : pyFindIdx (fun it => strLower it.name = strLower n) m.current_order with
    | none =>
      have := (pyFindIdx_none _).mp hfind it hmem
      simp [hname] at this
    | some i => simp [SharedMemory.removeOrderItem, hfind]
  · intro i hfind
    refine ⟨by simp [SharedMemory.removeOrderItem, hfind], ?_, ?_⟩
    · obtain ⟨_, hp, _⟩ := pyFindIdx_some_spec _ hfind
      simpa using hp
    · intro j hj
      obtain ⟨_, _, h3⟩ := pyFindIdx_some_spec _ hfind
      simpa using h3 j hj
  · intro hfind
    simp [SharedMemory.removeOrderItem, hfind]

/-- C9 witness: removing "classic burger" from a one-line ledger holding
"Classic Burger" deletes that line and reports `true`; removing "pizza"
leaves the state untouched and reports `false`. -/
theorem claim_C9_witness :
    ({ SharedMemory.init with
        current_order := [⟨"Classic Burger", 2, 10, []⟩] }.removeOrderItem
          "classic burger" =
      (SharedMemory.updateOrderTotal
        { { SharedMemory.init with
            current_order := [⟨"Classic Burger", 2, 10, []⟩] } with
          current_order :=
            ([⟨"Classic Burger", 2, 10, []⟩] : List OrderLine).eraseIdx 0 }, true)) ∧
    ({ SharedMemory.init with
        current_order := [⟨"Classic Burger", 2, 10, []⟩] }.removeOrderItem "pizza" =
      ({ SharedMemory.init with
          current_order := [⟨"Classic Burger", 2, 10, []⟩] }, false)) :=
  ⟨(((claim_C9 { SharedMemory.init with
      current_order := [⟨"Classic Burger", 2, 10, []⟩] } "classic burger").2.1)
        0 (by decide)).1,
   ((claim_C9 { SharedMemory.init with
      current_order := [⟨"Classic Burger", 2, 10, []⟩] } "pizza").2.2) (by decide)⟩

/-- C5: the summary totals satisfy subtotal = Σ(price×quantity),
tax = subtotal×0.08 and total = subtotal+tax = 1.08×subtotal (also in the
empty-ledger branch), and the `Order` model's subtotal/tax/total methods
satisfy the same equations with its tax rate (1.08×subtotal under the
default rate 0.08). -/
theorem claim_C5 (m : SharedMemory) (o : Order) :
    (getOrderSummaryTotals m).1 =
      (m.current_order.map (fun it => it.price * (it.quantity : ℚ))).sum ∧
    (getOrderSummaryTotals m).2.1 = (getOrderSummaryTotals m).1 * (8 / 100) ∧
    (getOrderSummaryTotals m).2.2 =
      (getOrderSummaryTotals m).1 + (getOrderSummaryTotals m).2.1 ∧
    (getOrderSummaryTotals m).2.2 = (108 / 100) * (getOrderSummaryTotals m).1 ∧
    o.getSubtotal = (o.items.map OrderItem.getTotalPrice).sum ∧
    o.getTaxAmount = o.getSubtotal * o.tax_rate ∧
    o.getTotal = o.getSubtotal + o.getTaxAmount ∧
    (o.tax_rate = 8 / 100 → o.getTotal = (108 / 100) * o.getSubtotal) := by
  have hsub : Order.getSubtotal o = (o.items.map OrderItem.getTotalPrice).sum := by
    simpa [Order.getSubtotal] using
      foldl_add_eq_sum OrderItem.getTotalPrice o.items 0
  by_cases he : m.current_order.isEmpty
  · have hnil : m.current_order = [] := by simpa [List.isEmpty_iff] using he
    refine ⟨?_, ?_, ?_, ?_, hsub, rfl, rfl, ?_⟩ <;>
      simp [getOrderSummaryTotals, he, hnil, Order.getTotal, Order.getTaxAmount]
    intro hrate
    rw [hrate]; ring
  · refine ⟨?_, ?_, ?_, ?_, hsub, rfl, rfl, ?_⟩
    · simp [getOrderSummaryTotals, he, sumPriceQty_eq_sum]
    · simp [getOrderSummaryTotals, he]
    · simp [getOrderSummaryTotals, he]
    · simp [getOrderSummaryTotals, he]; ring
    · intro hrate
      simp [Order.getTotal, Order.getTaxAmount, hrate]; ring

/-- C5 witness: the equations at a concrete one-line ledger and the
default-rate `Order`. -/
theorem claim_C5_witness :
    (⟨[⟨"Coca Cola", 2, 3, []⟩], "pending", 8 / 100⟩ : Order).getTotal =
      (108 / 100) * (⟨[⟨"Coca Cola", 2, 3, []⟩], "pending", 8 / 100⟩ : Order).getSubtotal :=
  (claim_C5 SharedMemory.init
    ⟨[⟨"Coca Cola", 2, 3, []⟩], "pending", 8 / 100⟩).2.2.2.2.2.2.2 rfl

/-- C6: when the ledger holds exactly one line matching the requested
name, removal deletes it entirely: `remove_order_item` returns `true` and
afterwards no line with that name remains; likewise the deterministic
removal branch of `handle_order_modification` removes the whole line
whenever the parsed removal quantity is absent or at least the line's
quantity. -/
theorem claim_C6 :
    (∀ (m : SharedMemory) (n : String),
      (m.current_order.filter (fun it => strLower it.name = strLower n)).length = 1 →
        (m.removeOrderItem n).2 = true ∧
        ∀ it ∈ (m.removeOrderItem n).1.current_order,
          ¬ strLower it.name = strLower n) ∧
    (∀ (menu : List MenuItem) (order : List OrderLine) (b : Bool)
        (qtyOpt : Option Int) (itemTxt : String),
      (order.filter
        (fun it =>
          strLower it.name = strLower (resolveTargetName menu itemTxt))).length = 1 →
      (qtyOpt = none ∨ ∃ q, qtyOpt = some q ∧
        ∀ it ∈ order,
          strLower it.name = strLower (resolveTargetName menu itemTxt) →
          it.quantity ≤ q) →
        (applyRemovalMatch menu (order, b) qtyOpt itemTxt).2 = true ∧
        ∀ it ∈ (applyRemovalMatch menu (order, b) qtyOpt itemTxt).1,
          ¬ strLower it.name = strLower (resolveTargetName menu itemTxt)) := by
  constructor
  · intro m n huniq
    cases hfind : pyFindIdx (fun it => strLower it.name = strLower n) m.current_order with
    | none =>
      exfalso
      have hnil := filter_eq_nil_of _ _ ((pyFindIdx_none _).mp hfind)
      rw [hnil] at huniq
      simp at huniq
    | some i =>
      constructor
      · simp [SharedMemory.removeOrderItem, hfind]
      · intro it hit
        have hres : (m.removeOrderItem n).1.current_order =
            m.current_order.eraseIdx i := by
          simp [SharedMemory.removeOrderItem, hfind, SharedMemory.updateOrderTotal]
        rw [hres] at hit
        have hnil := filter_eraseIdx_nil _ m.current_order i huniq.le hfind
        simpa using forall_not_of_filter_nil _ hnil it hit
  · intro menu order b qtyOpt itemTxt huniq hq
    cases hfind : pyFindIdx
        (fun it => strLower it.name = strLower (resolveTargetName menu itemTxt)) order with
    | none =>
      exfalso
      have hnil := filter_eq_nil_of _ _ ((pyFindIdx_none _).mp hfind)
      rw [hnil] at huniq
      simp at huniq
    | some i =>
      have hidx : findOrderItemIdx menu order itemTxt = some i := by
        simp [findOrderItemIdx, hfind]
      obtain ⟨hlt, hp, _⟩ := pyFindIdx_some_spec _ hfind
      have hnil := filter_eraseIdx_nil _ order i huniq.le hfind
      rcases hq with hnone | ⟨q, hqeq, hbound⟩
      · subst hnone
        constructor
        · simp [applyRemovalMatch, hidx]
        · intro it hit
          have hres : (applyRemovalMatch menu (order, b) none itemTxt).1 =
              order.eraseIdx i := by
            simp [applyRemovalMatch, hidx]
          rw [hres] at hit
          simpa using forall_not_of_filter_nil _ hnil it hit
      · subst hqeq
        have hitem : strLower (order.getD i default).name =
            strLower (resolveTargetName menu itemTxt) := by simpa using hp
        have hge : (order.getD i default).quantity ≤ q :=
          hbound _ (getD_mem_of_lt order i hlt) hitem
        have hge2 : (order[i]?.getD default).quantity ≤ q := by
          simpa [List.getD] using hge
        constructor
        · simp [applyRemovalMatch, hidx, hge2]
        · intro it hit
          have hres : (applyRemovalMatch menu (order, b) (some q) itemTxt).1 =
              order.eraseIdx i := by
            simp [applyRemovalMatch, hidx, hge2]
          rw [hres] at hit
          simpa using forall_not_of_filter_nil _ hnil it hit

/-- C6 witness: a one-line "Classic Burger" ledger is emptied both by
`remove_order_item "classic burger"` and by a parsed `remove 5 ...`
deterministic match. -/
theorem claim_C6_witness :
    (({ SharedMemory.init with
        current_order := [⟨"Classic Burger", 2, 10, []⟩] }.removeOrderItem
          "classic burger").2 = true ∧
      ∀ it ∈ ({ SharedMemory.init with
          current_order := [⟨"Classic Burger", 2, 10, []⟩] }.removeOrderItem
            "classic burger").1.current_order,
        ¬ strLower it.name = strLower "classic burger") ∧
    ((applyRemovalMatch [] ([⟨"Classic Burger", 2, 10, []⟩], false)
        (some 5) "Classic Burger").2 = true ∧
      ∀ it ∈ (applyRemovalMatch [] ([⟨"Classic Burger", 2, 10, []⟩], false)
          (some 5) "Classic Burger").1,
        ¬ strLower it.name = strLower (resolveTargetName [] "Classic Burger")) :=
  ⟨claim_C6.1 { SharedMemory.init with
      current_order := [⟨"Classic Burger", 2, 10, []⟩] } "classic burger" (by decide),
   claim_C6.2 [] [⟨"Classic Burger", 2, 10, []⟩] false (some 5) "Classic Burger"
     (by decide) (Or.inr ⟨5, rfl, by decide⟩)⟩

/-! ## Control-field preservation lemmas
`_ctl` lemmas record that an operation leaves `conversation_stage`,
`upsell_attempts` and `max_upsell_attempts` unchanged. -/

theorem updateOrderTotal_ctl (m : SharedMemory) :
    (m.updateOrderTotal).conversation_stage = m.conversation_stage ∧
    (m.updateOrderTotal).upsell_attempts = m.upsell_attempts ∧
    (m.updateOrderTotal).max_upsell_attempts = m.max_upsell_attempts :=
  ⟨rfl, rfl, rfl⟩

theorem clearOrder_ctl (m : SharedMemory) :
    (m.clearOrder).conversation_stage = m.conversation_stage ∧
    (m.clearOrder).upsell_attempts = m.upsell_attempts ∧
    (m.clearOrder).max_upsell_attempts = m.max_upsell_attempts :=
  ⟨rfl, rfl, rfl⟩

theorem setCustomerIntent_ctl (m : SharedMemory) (i r : String) :
    (m.setCustomerIntent i r).conversation_stage = m.conversation_stage ∧
    (m.setCustomerIntent i r).upsell_attempts = m.upsell_attempts ∧
    (m.setCustomerIntent i r).max_upsell_attempts = m.max_upsell_attempts :=
  ⟨rfl, rfl, rfl⟩

theorem incrementError_ctl (m : SharedMemory) (msg : String) :
    (m.incrementError msg).conversation_stage = m.conversation_stage ∧
    (m.incrementError msg).upsell_attempts = m.upsell_attempts ∧
    (m.incrementError msg).max_upsell_attempts = m.max_upsell_attempts := by
  simp only [SharedMemory.incrementError, SharedMemory.triggerHumanIntervention]
  split
  · exact ⟨rfl, rfl, rfl⟩
  · exact ⟨rfl, rfl, rfl⟩

theorem addOrderItem_ctl (m : SharedMemory) (item : OrderLine) :
    (m.addOrderItem item).conversation_stage = m.conversation_stage ∧
    (m.addOrderItem item).upsell_attempts = m.upsell_attempts ∧
    (m.addOrderItem item).max_upsell_attempts = m.max_upsell_attempts := by
  simp only [SharedMemory.addOrderItem]
  split
  · exact ⟨rfl, rfl, rfl⟩
  · exact ⟨rfl, rfl, rfl⟩

theorem handleOrderModification_ctl (menu : List MenuItem) (m : SharedMemory)
    (inp : String) (r : List (Option Int × String)) (q : List (Int × String))
    (n : List String) :
    (handleOrderModification menu m inp r q n).conversation_stage =
      m.conversation_stage ∧
    (handleOrderModification menu m inp r q n).upsell_attempts =
      m.upsell_attempts ∧
    (handleOrderModification menu m inp r q n).max_upsell_attempts =
      m.max_upsell_attempts := by
  simp only [handleOrderModification]
  repeat' split
  all_goals exact ⟨rfl, rfl, rfl⟩

theorem foldl_ctl {α : Type} (f : SharedMemory → α → SharedMemory)
    (hf : ∀ (m : SharedMemory) (x : α),
      (f m x).conversation_stage = m.conversation_stage ∧
      (f m x).upsell_attempts = m.upsell_attempts ∧
      (f m x).max_upsell_attempts = m.max_upsell_attempts) :
    ∀ (l : List α) (m : SharedMemory),
      (l.foldl f m).conversation_stage = m.conversation_stage ∧
      (l.foldl f m).upsell_attempts = m.upsell_attempts ∧
      (l.foldl f m).max_upsell_attempts = m.max_upsell_attempts := by
  intro l
  induction l with
  | nil => intro m; exact ⟨rfl, rfl, rfl⟩
  | cons x xs ih =>
    intro m
    obtain ⟨h1, h2, h3⟩ := ih (f m x)
    obtain ⟨g1, g2, g3⟩ := hf m x
    refine ⟨?_, ?_, ?_⟩ <;> rw [List.foldl_cons]
    · rw [h1, g1]
    · rw [h2, g2]
    · rw [h3, g3]

theorem processAddItems_ctl (menu : List MenuItem) (m : SharedMemory)
    (items : List RawItem) :
    (processAddItems menu m items).conversation_stage = m.conversation_stage ∧
    (processAddItems menu m items).upsell_attempts = m.upsell_attempts ∧
    (processAddItems menu m items).max_upsell_attempts = m.max_upsell_attempts := by
  have hf : ∀ (acc : SharedMemory) (raw : RawItem),
      ((match normalizeOrderItem menu raw with
        | some it => acc.addOrderItem it
        | none => acc) : SharedMemory).conversation_stage = acc.conversation_stage ∧
      ((match normalizeOrderItem menu raw with
        | some it => acc.addOrderItem it
        | none => acc) : SharedMemory).upsell_attempts = acc.upsell_attempts ∧
      ((match normalizeOrderItem menu raw with
        | some it => acc.addOrderItem it
        | none => acc) : SharedMemory).max_upsell_attempts = acc.max_upsell_attempts := by
    intro acc raw
    cases normalizeOrderItem menu raw with
    | some it => exact addOrderItem_ctl acc it
    | none => exact ⟨rfl, rfl, rfl⟩
  obtain ⟨h1, h2, h3⟩ := foldl_ctl _ hf items m
  simp only [processAddItems]
  split
  · exact ⟨h1, h2, h3⟩
  · exact ⟨h1, h2, h3⟩

theorem fallbackOrderProcessing_ctl (menu : List MenuItem) (m : SharedMemory)
    (items : List ExtractedItem) :
    (fallbackOrderProcessing menu m items).conversation_stage =
      m.conversation_stage ∧
    (fallbackOrderProcessing menu m items).upsell_attempts = m.upsell_attempts ∧
    (fallbackOrderProcessing menu m items).max_upsell_attempts =
      m.max_upsell_attempts := by
  refine foldl_ctl _ ?_ items m
  intro acc it
  cases findBestMenuMatch menu it.item_name with
  | some mi =>
    by_cases hc : it.confidence > (6 / 10 : ℚ)
    · simpa [hc] using addOrderItem_ctl acc
        { name := mi.name, quantity := it.quantity, price := mi.price,
          customizations := it.customizations }
    · simp [hc]
  | none => exact ⟨rfl, rfl, rfl⟩

theorem processOrderWithExtractedItems_ctl (menu : List MenuItem)
    (m : SharedMemory) (outcome : OrderProcessOutcome)
    (items : List ExtractedItem) :
    (processOrderWithExtractedItems menu m outcome items).conversation_stage =
      m.conversation_stage ∧
    (processOrderWithExtractedItems menu m outcome items).upsell_attempts =
      m.upsell_attempts ∧
    (processOrderWithExtractedItems menu m outcome items).max_upsell_attempts =
      m.max_upsell_attempts := by
  cases outcome with
  | llm added => exact processAddItems_ctl menu m added
  | failed => exact fallbackOrderProcessing_ctl menu m items

theorem handleMenuRequest_ctl (m : SharedMemory) (u : String) :
    (handleMenuRequest m u).conversation_stage = m.conversation_stage ∧
    (handleMenuRequest m u).upsell_attempts = m.upsell_attempts ∧
    (handleMenuRequest m u).max_upsell_attempts = m.max_upsell_attempts := by
  simp only [handleMenuRequest]
  split
  · exact ⟨rfl, rfl, rfl⟩
  · exact ⟨rfl, rfl, rfl⟩

theorem handleOrderRequest_ctl (menu : List MenuItem) (m : SharedMemory)
    (rd : RouteDecision) (u : String) (r : List (Option Int × String))
    (q : List (Int × String)) (n : List String) (o : OrderProcessOutcome) :
    (handleOrderRequest menu m rd u r q n o).conversation_stage =
      m.conversation_stage ∧
    (handleOrderRequest menu m rd u r q n o).upsell_attempts =
      m.upsell_attempts ∧
    (handleOrderRequest menu m rd u r q n o).max_upsell_attempts =
      m.max_upsell_attempts := by
  simp only [handleOrderRequest]
  split
  · exact handleOrderModification_ctl menu _ u r q n
  · split
    · exact processOrderWithExtractedItems_ctl menu _ o rd.extracted_items
    · exact ⟨rfl, rfl, rfl⟩

theorem handleUpsellingRequest_upsell (m : SharedMemory) (ok : Bool)
    (h : m.upsell_attempts ≤ m.max_upsell_attempts) :
    (handleUpsellingRequest m ok).upsell_attempts ≤
      (handleUpsellingRequest m ok).max_upsell_attempts ∧
    (handleUpsellingRequest m ok).conversation_stage = m.conversation_stage := by
  simp only [handleUpsellingRequest]
  split
  · exact ⟨h, rfl⟩
  · split
    · exact ⟨h, rfl⟩
    · split
      · rename_i hempty hlt _
        refine ⟨?_, rfl⟩
        simp only []
        omega
      · exact ⟨h, rfl⟩

theorem postProcessResponse_upsell (m : SharedMemory) (b : Bool)
    (h : m.upsell_attempts ≤ m.max_upsell_attempts) :
    (postProcessResponse m b).upsell_attempts ≤
      (postProcessResponse m b).max_upsell_attempts ∧
    (postProcessResponse m b).conversation_stage = m.conversation_stage := by
  simp only [postProcessResponse]
  split
  · rename_i hcond
    refine ⟨?_, rfl⟩
    simp only []
    omega
  · exact ⟨h, rfl⟩

theorem handleFinalizationRequest_ctl (m : SharedMemory) (rd : RouteDecision) :
    (handleFinalizationRequest m rd).upsell_attempts = m.upsell_attempts ∧
    (handleFinalizationRequest m rd).max_upsell_attempts =
      m.max_upsell_attempts ∧
    ((handleFinalizationRequest m rd).conversation_stage = m.conversation_stage ∨
     (handleFinalizationRequest m rd).conversation_stage = "greeting" ∨
     (handleFinalizationRequest m rd).conversation_stage = "awaiting_delivery") := by
  simp only [handleFinalizationRequest]
  split
  · exact ⟨rfl, rfl, Or.inr (Or.inl rfl)⟩
  · split
    · exact ⟨rfl, rfl, Or.inl rfl⟩
    · exact ⟨rfl, rfl, Or.inr (Or.inr rfl)⟩

theorem handleDeliveryRequest_ctl (menu : List MenuItem) (m : SharedMemory)
    (rd : RouteDecision) (u : String) (r : List (Option Int × String))
    (q : List (Int × String)) (n : List String) :
    (handleDeliveryRequest menu m rd u r q n).upsell_attempts =
      m.upsell_attempts ∧
    (handleDeliveryRequest menu m rd u r q n).max_upsell_attempts =
      m.max_upsell_attempts ∧
    ((handleDeliveryRequest menu m rd u r q n).conversation_stage =
        m.conversation_stage ∨
     (handleDeliveryRequest menu m rd u r q n).conversation_stage =
        "awaiting_delivery" ∨
     (handleDeliveryRequest menu m rd u r q n).conversation_stage = "greeting" ∨
     (handleDeliveryRequest menu m rd u r q n).conversation_stage =
        "completed") := by
  simp only [handleDeliveryRequest]
  split
  · obtain ⟨_, h2, h3⟩ := handleOrderModification_ctl menu m u r q n
    exact ⟨h2, h3, Or.inr (Or.inl rfl)⟩
  · split
    · exact ⟨rfl, rfl, Or.inr (Or.inr (Or.inl rfl))⟩
    · split
      · exact ⟨rfl, rfl, Or.inr (Or.inr (Or.inr rfl))⟩
      · exact ⟨rfl, rfl, Or.inl rfl⟩

/-- C10: in every session state reachable through conversation turns, the
upsell counter never exceeds `max_upsell_attempts`: both increment sites
(the upselling handler and the post-processing hook) first check that the
counter is strictly below the maximum. -/
theorem claim_C10 (menu : List MenuItem) (m : SharedMemory)
    (h : Reachable menu m) :
    m.upsell_attempts ≤ m.max_upsell_attempts := by
  induction h with
  | init => decide
  | @step m m' _ hs ih =>
    cases hs with
    | unchanged => exact ih
    | menuReq u =>
      obtain ⟨hst, ha, hm⟩ := handleMenuRequest_ctl m u
      exact (postProcessResponse_upsell _ false (by rw [ha, hm]; exact ih)).1
    | orderReq rd u r q n o =>
      obtain ⟨hst, ha, hm⟩ := handleOrderRequest_ctl menu m rd u r q n o
      exact (postProcessResponse_upsell _ true (by rw [ha, hm]; exact ih)).1
    | upsellReq ok =>
      have h1 := (handleUpsellingRequest_upsell m ok ih).1
      exact (postProcessResponse_upsell _ false h1).1
    | finalizeReq rd =>
      obtain ⟨ha, hm, _⟩ := handleFinalizationRequest_ctl m rd
      exact (postProcessResponse_upsell _ false (by rw [ha, hm]; exact ih)).1
    | deliveryReq rd u r q n =>
      obtain ⟨ha, hm, _⟩ := handleDeliveryRequest_ctl menu m rd u r q n
      exact (postProcessResponse_upsell _ false (by rw [ha, hm]; exact ih)).1
    | errorStep msg =>
      obtain ⟨_, ha, hm⟩ := incrementError_ctl m msg
      rw [ha, hm]
      exact ih

/-- C10 witness: the invariant at the freshly created session state. -/
theorem claim_C10_witness :
    SharedMemory.init.upsell_attempts ≤ SharedMemory.init.max_upsell_attempts :=
  claim_C10 [] SharedMemory.init Reachable.init

theorem postProcessResponse_stage (m : SharedMemory) (b : Bool) :
    (postProcessResponse m b).conversation_stage = m.conversation_stage := by
  simp only [postProcessResponse]
  split
  · rfl
  · rfl

theorem handleUpsellingRequest_stage (m : SharedMemory) (ok : Bool) :
    (handleUpsellingRequest m ok).conversation_stage = m.conversation_stage := by
  simp only [handleUpsellingRequest]
  repeat' split
  all_goals rfl

/-- C2 counterexample: with the conversation in stage "ordering", the
deterministic cancel branch ("cancel my order") empties the ledger but
leaves `conversation_stage` at "ordering" — it is not reset to
"greeting" as the claim states for every cancellation path. -/
theorem claim_C2_counterexample :
    (handleOrderModification []
      { SharedMemory.init with
        conversation_stage := "ordering",
        current_order := [⟨"Classic Burger", 1, 10, []⟩] }
      "cancel my order" [] [] []).current_order = [] ∧
    (handleOrderModification []
      { SharedMemory.init with
        conversation_stage := "ordering",
        current_order := [⟨"Classic Burger", 1, 10, []⟩] }
      "cancel my order" [] [] []).conversation_stage = "ordering" ∧
    ¬ (handleOrderModification []
      { SharedMemory.init with
        conversation_stage := "ordering",
        current_order := [⟨"Classic Burger", 1, 10, []⟩] }
      "cancel my order" [] [] []).conversation_stage = "greeting" := by
  refine ⟨?_, ?_, ?_⟩ <;> decide

/-- C2 (amended): the coordinator's CANCEL_ORDER paths (finalization and
delivery handlers) leave the ledger empty and set `conversation_stage` to
"greeting"; the deterministic cancel branch of
`handle_order_modification` leaves the ledger empty but keeps
`conversation_stage` unchanged. -/
theorem claim_C2 :
    (∀ (m : SharedMemory) (rd : RouteDecision),
      rd.wants_order_change = true → rd.user_intent = "CANCEL_ORDER" →
        (handleFinalizationRequest m rd).current_order = [] ∧
        (handleFinalizationRequest m rd).conversation_stage = "greeting") ∧
    (∀ (menu : List MenuItem) (m : SharedMemory) (rd : RouteDecision)
        (inp : String) (r : List (Option Int × String)) (q : List (Int × String))
        (n : List String),
      rd.wants_order_change = true → rd.user_intent = "CANCEL_ORDER" →
        (handleDeliveryRequest menu m rd inp r q n).current_order = [] ∧
        (handleDeliveryRequest menu m rd inp r q n).conversation_stage =
          "greeting") ∧
    (∀ (menu : List MenuItem) (m : SharedMemory) (inp : String)
        (r : List (Option Int × String)) (q : List (Int × String))
        (n : List String),
      ¬ (m.conversation_stage = "completed" ∨ m.order_status = "COMPLETE" ∨
          m.order_status = "CONFIRMED") →
      (cancelKeywords.any fun kw => strContains (strLower (strStrip inp)) kw) = true →
        (handleOrderModification menu m inp r q n).current_order = [] ∧
        (handleOrderModification menu m inp r q n).conversation_stage =
          m.conversation_stage) := by
  refine ⟨?_, ?_, ?_⟩
  · intro m rd h1 h2
    constructor <;>
      simp [handleFinalizationRequest, h1, h2, SharedMemory.clearOrder,
        SharedMemory.setCustomerIntent]
  · intro menu m rd inp r q n h1 h2
    constructor <;>
      simp [handleDeliveryRequest, h1, h2, SharedMemory.clearOrder,
        SharedMemory.setCustomerIntent]
  · intro menu m inp r q n hguard hkw
    constructor <;>
      simp [handleOrderModification, hguard, hkw, SharedMemory.clearOrder]

/-- C2 witness: the three cancellation paths at concrete inputs. -/
theorem claim_C2_witness :
    ((handleFinalizationRequest SharedMemory.init
        { agent := "finalization", user_intent := "CANCEL_ORDER",
          wants_order_change := true }).current_order = [] ∧
      (handleFinalizationRequest SharedMemory.init
        { agent := "finalization", user_intent := "CANCEL_ORDER",
          wants_order_change := true }).conversation_stage = "greeting") ∧
    ((handleDeliveryRequest [] SharedMemory.init
        { agent := "delivery", user_intent := "CANCEL_ORDER",
          wants_order_change := true } "cancel" [] [] []).current_order = [] ∧
      (handleDeliveryRequest [] SharedMemory.init
        { agent := "delivery", user_intent := "CANCEL_ORDER",
          wants_order_change := true } "cancel" [] [] []).conversation_stage =
        "greeting") ∧
    ((handleOrderModification [] SharedMemory.init
        "cancel my order" [] [] []).current_order = [] ∧
      (handleOrderModification [] SharedMemory.init
        "cancel my order" [] [] []).conversation_stage =
        SharedMemory.init.conversation_stage) :=
  ⟨claim_C2.1 SharedMemory.init
      { agent := "finalization", user_intent := "CANCEL_ORDER",
        wants_order_change := true } rfl rfl,
   claim_C2.2.1 [] SharedMemory.init
      { agent := "delivery", user_intent := "CANCEL_ORDER",
        wants_order_change := true } "cancel" [] [] [] rfl rfl,
   claim_C2.2.2 [] SharedMemory.init "cancel my order" [] [] []
      (by decide) (by decide)⟩

/-- C3 counterexample: with `conversation_stage` already "completed",
item addition through `process_order_with_extracted_items` still mutates
the ledger — the freeze only guards `handle_order_modification`. -/
theorem claim_C3_counterexample :
    ({ SharedMemory.init with
        conversation_stage := "completed" } : SharedMemory).conversation_stage =
      "completed" ∧
    ¬ (processOrderWithExtractedItems []
        { SharedMemory.init with conversation_stage := "completed" }
        (.llm [{ name := some "Pizza", price := some 5 }]) []).current_order =
      ({ SharedMemory.init with
          conversation_stage := "completed" } : SharedMemory).current_order := by
  constructor
  · rfl
  · decide

/-- C3 (amended): once `conversation_stage` is "completed",
`handle_order_modification` leaves the session state entirely unchanged,
and no reachable state carries a stage beyond "completed" (the
coordinator only ever assigns "greeting", "awaiting_delivery" or
"completed"); item addition, however, is not frozen. -/
theorem claim_C3 :
    (∀ (menu : List MenuItem) (m : SharedMemory) (inp : String)
        (r : List (Option Int × String)) (q : List (Int × String))
        (n : List String),
      m.conversation_stage = "completed" →
        handleOrderModification menu m inp r q n = m) ∧
    (∀ (menu : List MenuItem) (m : SharedMemory), Reachable menu m →
      m.conversation_stage = "greeting" ∨
      m.conversation_stage = "awaiting_delivery" ∨
      m.conversation_stage = "completed") := by
  constructor
  · intro menu m inp r q n h
    simp [handleOrderModification, h]
  · intro menu m h
    induction h with
    | init => left; rfl
    | @step m m' _ hs ih =>
      cases hs with
      | unchanged => exact ih
      | menuReq u =>
        rw [postProcessResponse_stage, (handleMenuRequest_ctl m u).1]
        exact ih
      | orderReq rd u r q n o =>
        rw [postProcessResponse_stage, (handleOrderRequest_ctl menu m rd u r q n o).1]
        exact ih
      | upsellReq ok =>
        rw [postProcessResponse_stage, handleUpsellingRequest_stage]
        exact ih
      | finalizeReq rd =>
        rw [postProcessResponse_stage]
        rcases (handleFinalizationRequest_ctl m rd).2.2 with hst | hst | hst
        · rw [hst]; exact ih
        · rw [hst]; left; rfl
        · rw [hst]; right; left; rfl
      | deliveryReq rd u r q n =>
        rw [postProcessResponse_stage]
        rcases (handleDeliveryRequest_ctl menu m rd u r q n).2.2 with
          hst | hst | hst | hst
        · rw [hst]; exact ih
        · rw [hst]; right; left; rfl
        · rw [hst]; left; rfl
        · rw [hst]; right; right; rfl
      | errorStep msg =>
        rw [(incrementError_ctl m msg).1]
        exact ih

/-- C3 witness: the freeze of `handle_order_modification` at a concrete
completed state, and the stage bound at the initial state. -/
theorem claim_C3_witness :
    handleOrderModification []
      { SharedMemory.init with conversation_stage := "completed" }
      "remove the burger" [] [] [] =
      { SharedMemory.init with conversation_stage := "completed" } ∧
    (SharedMemory.init.conversation_stage = "greeting" ∨
     SharedMemory.init.conversation_stage = "awaiting_delivery" ∨
     SharedMemory.init.conversation_stage = "completed") :=
  ⟨claim_C3.1 [] { SharedMemory.init with conversation_stage := "completed" }
      "remove the burger" [] [] [] rfl,
   claim_C3.2 [] SharedMemory.init Reachable.init⟩

theorem intelligentLookup_mem (menu : List MenuItem) (s : String) :
    ∀ {table : List (String × String)} {mi : MenuItem},
      intelligentLookup menu s table = some mi → mi ∈ menu := by
  intro table
  induction table with
  | nil => intro mi h; simp [intelligentLookup] at h
  | cons kv rest ih =>
    intro mi h
    simp only [intelligentLookup] at h
    split at h
    · split at h
      · rename_i it hfound
        cases h
        exact pyFind_mem _ hfound
      · exact ih h
    · exact ih h

theorem findBestMenuMatch_mem (menu : List MenuItem) (s : String)
    {mi : MenuItem} (h : findBestMenuMatch menu s = some mi) : mi ∈ menu := by
  simp only [findBestMenuMatch] at h
  split at h
  · rename_i it hfound
    cases h
    exact pyFind_mem _ hfound
  · split at h
    · rename_i it hfound
      cases h
      exact pyFind_mem _ hfound
    · exact intelligentLookup_mem menu _ h

/-- C7 counterexample: `_fallback_order_processing` performs no quantity
validation, so an extracted item with quantity 0 and high confidence puts
a line with non-positive quantity into the ledger. -/
theorem claim_C7_counterexample :
    (fallbackOrderProcessing [⟨"Classic Burger", 10⟩] SharedMemory.init
      [{ item_name := "Classic Burger", quantity := 0,
         confidence := 1 }]).current_order =
      [⟨"Classic Burger", 0, 10, []⟩] ∧
    ¬ ∀ it ∈ (fallbackOrderProcessing [⟨"Classic Burger", 10⟩] SharedMemory.init
        [{ item_name := "Classic Burger", quantity := 0,
           confidence := 1 }]).current_order, 0 < it.quantity := by
  have hm : findBestMenuMatch [⟨"Classic Burger", 10⟩] "Classic Burger" =
      some ⟨"Classic Burger", 10⟩ := by decide
  have hc : (6 / 10 : ℚ) < 1 := by norm_num
  have hfirst : (fallbackOrderProcessing [⟨"Classic Burger", 10⟩] SharedMemory.init
      [{ item_name := "Classic Burger", quantity := 0,
         confidence := 1 }]).current_order = [⟨"Classic Burger", 0, 10, []⟩] := by
    simp [fallbackOrderProcessing, hm, hc, SharedMemory.addOrderItem, addLoop,
      SharedMemory.init, SharedMemory.updateOrderTotal]
  refine ⟨hfirst, fun hall => ?_⟩
  have := hall ⟨"Classic Burger", 0, 10, []⟩ (by rw [hfirst]; simp)
  simp at this

/-- C7 (amended): every line produced by `_normalize_order_item` has
integer quantity strictly greater than 0 and (for a menu whose prices are
non-negative) unit price at least 0, and after `handle_order_modification`
every ledger line either has positive quantity or was already present
before the call; the fallback path `_fallback_order_processing`, however,
inserts extracted quantities without validation. -/
theorem claim_C7 :
    (∀ (menu : List MenuItem) (raw : RawItem) (it : OrderLine),
      normalizeOrderItem menu raw = some it →
        0 < it.quantity ∧ ((∀ mi ∈ menu, 0 ≤ mi.price) → 0 ≤ it.price)) ∧
    (∀ (menu : List MenuItem) (m : SharedMemory) (inp : String)
        (r : List (Option Int × String)) (q : List (Int × String))
        (n : List String) (it : OrderLine),
      it ∈ (handleOrderModification menu m inp r q n).current_order →
        0 < it.quantity ∨ it ∈ m.current_order) := by
  constructor
  · intro menu raw it h
    simp only [normalizeOrderItem] at h
    split at h
    · exact absurd h (by simp)
    · rw [Option.some.injEq] at h
      subst h
      constructor
      · cases hq : raw.quantity with
        | none => simp
        | some qv =>
          simp only [hq]
          split
          · simp
          · rename_i hqpos
            simpa using by omega
      · intro hmenu
        cases hp : raw.price with
        | none =>
          simp only [hp]
          cases hfm : findBestMenuMatch menu
              (strStrip (pyOrStr raw.name (pyOrStr raw.item_name (pyOrStr raw.menu_name
                (pyOrStr raw.title (pyOrStr raw.product "")))))) with
          | none => simp [hfm]
          | some mi => simpa [hfm] using hmenu mi (findBestMenuMatch_mem menu _ hfm)
        | some pv =>
          simp only [hp]
          split
          · cases hfm : findBestMenuMatch menu
                (strStrip (pyOrStr raw.name (pyOrStr raw.item_name (pyOrStr raw.menu_name
                  (pyOrStr raw.title (pyOrStr raw.product "")))))) with
            | none => simp [hfm]
            | some mi => simpa [hfm] using hmenu mi (findBestMenuMatch_mem menu _ hfm)
          · rename_i hppos
            linarith [lt_of_not_le hppos]
  · intro menu m inp r q n it hit
    simp only [handleOrderModification] at hit
    split at hit
    · exact Or.inr hit
    · split at hit
      · simp [SharedMemory.clearOrder] at hit
      · repeat' split at hit
        all_goals
          first
          | exact Or.inr hit
          | (left
             simp only [SharedMemory.updateOrderTotal] at hit
             simpa using (List.mem_filter.mp hit).2)

/-- C7 witness: a normalized "Pizza" line has quantity 1 > 0 and price
0 ≥ 0, and a line untouched by a no-op modification was already in the
ledger. -/
theorem claim_C7_witness :
    (0 < (⟨"Pizza", 1, 0, []⟩ : OrderLine).quantity ∧
      ((∀ mi ∈ ([] : List MenuItem), 0 ≤ mi.price) →
        0 ≤ (⟨"Pizza", 1, 0, []⟩ : OrderLine).price)) ∧
    (0 < (⟨"Classic Burger", 2, 10, []⟩ : OrderLine).quantity ∨
      (⟨"Classic Burger", 2, 10, []⟩ : OrderLine) ∈
        ({ SharedMemory.init with
            current_order := [⟨"Classic Burger", 2, 10, []⟩] }
          : SharedMemory).current_order) :=
  ⟨claim_C7.1 [] { name := some "Pizza" } ⟨"Pizza", 1, 0, []⟩ (by decide),
   claim_C7.2 [] { SharedMemory.init with
      current_order := [⟨"Classic Burger", 2, 10, []⟩] } "hello" [] [] []
     ⟨"Classic Burger", 2, 10, []⟩ (by decide)⟩

end RestaurantAI
